import Mathlib

/-!
  # UTM tracker: verification of the attribution / aggregation core

  Shallow embedding of the `mehtameet005/utm-tracker` repository. The
  repository holds several near-duplicate scripts; each namespace below
  embeds one script variant, keeping the source function names:

  * `Tracker`  — `src/utm-tracker.js` (the plain plugin).
  * `Part001`  — `src/unnamed/part_001` (debug variant with `try/catch`
    around `JSON.parse` of the stored value).
  * `FixedA`   — first script of `src/utm-tracker-fixed.js` (guarded
    init, cookie restore).
  * `Part007`  — `src/unnamed/part_007` (variant whose init stores URL
    utm params unconditionally).
  * `FixedB`   — second script of `src/utm-tracker-fixed.js` (referrer
    fallback variant; same init as `src/unnamed/part_000`).

  Modelling conventions, used throughout:

  * JavaScript objects are association lists in insertion order;
    assignment (`o[k] = v`) replaces in place when the key exists and
    appends otherwise (`setProp`), matching JS key-ordering semantics.
  * `JSON.parse` / `JSON.stringify` are embedded as an executable
    recursive-descent reader (`jsonParse`, fuelled, integer numerals,
    common string escapes) and writer (`jsonStringify`). Arrays,
    fractional numbers and `\u` escapes are outside the fragment the
    tracker ever writes and are not modelled; every concrete theorem
    evaluates both functions on inputs inside the fragment.
  * Timestamps produced by `new Date().toISOString()` are kept as the
    strings the scripts store; where the scripts subtract parsed dates
    (`new Date(a) - new Date(b)`, in the aggregator) timestamps are
    modelled as integer milliseconds.
  * Browser storage is a record of the single keys the scripts touch:
    `localStorage[STORAGE_KEY]`, the `STORAGE_KEY` cookie and the
    consent cookie, each an `Option String` (absent or raw value; the
    `encodeURIComponent`/`decodeURIComponent` round trip through the
    cookie jar is modelled as the identity).
  * A thrown JS exception is `Except.error`; scripts whose functions
    catch locally are total.
-/

/-- JSON values in the fragment the tracker reads and writes: `null`,
booleans, integer numbers, strings and objects (insertion-ordered field
lists). -/
inductive Json where
  | null : Json
  | bool (b : Bool) : Json
  | num (n : Int) : Json
  | str (s : String) : Json
  | obj (fields : List (String × Json)) : Json

/-- First binding of a key in a JS object, `undefined` as `none`. -/
def getProp {α : Type} : List (String × α) → String → Option α
  | [], _ => none
  | (k0, v0) :: rest, k => if k0 = k then some v0 else getProp rest k

/-- JS property assignment `o[k] = v`: replace in place when the key is
present (keeping its position), append otherwise. -/
def setProp {α : Type} : List (String × α) → String → α → List (String × α)
  | [], k, v => [(k, v)]
  | (k0, v0) :: rest, k, v =>
      if k0 = k then (k0, v) :: rest else (k0, v0) :: setProp rest k v

/-- JS truthiness of a parsed JSON value (`undefined` never appears: the
scripts only test values produced by `JSON.parse`). -/
def truthy : Json → Bool
  | .null => false
  | .bool b => b
  | .num n => n != 0
  | .str s => s != ""
  | .obj _ => true

/-- String coercion `String(v)` as the aggregator's computed keys use it. -/
def jsString : Json → String
  | .null => "null"
  | .bool true => "true"
  | .bool false => "false"
  | .num n => toString n
  | .str s => s
  | .obj _ => "[object Object]"

/-- Property read through optional chaining, `v?.k`: `undefined` on
`null`, on primitives and on a missing key. -/
def jsGet (j : Json) (k : String) : Option Json :=
  match j with
  | .obj fields => getProp fields k
  | _ => none

/-- Escape of one character inside a JSON string literal (quote and
backslash; control characters do not occur in the tracker's data). -/
def jsonEscapeChar (c : Char) : String :=
  if c = '\\' then "\\\\"
  else if c = '"' then "\\\""
  else String.singleton c

/-- Escape of a string for `JSON.stringify`. -/
def jsonEscape (s : String) : String :=
  String.join (s.toList.map jsonEscapeChar)

mutual

/-- Executable `JSON.stringify` on the modelled fragment. -/
def jsonStringify : Json → String
  | .null => "null"
  | .bool true => "true"
  | .bool false => "false"
  | .num n => toString n
  | .str s => "\"" ++ jsonEscape s ++ "\""
  | .obj fields => "\x7b" ++ stringifyProps fields ++ "\x7d"

/-- Comma-joined `"key":value` renderings of an object's fields. -/
def stringifyProps : List (String × Json) → String
  | [] => ""
  | [(k, v)] => "\"" ++ jsonEscape k ++ "\":" ++ jsonStringify v
  | (k, v) :: rest =>
      "\"" ++ jsonEscape k ++ "\":" ++ jsonStringify v ++ "," ++ stringifyProps rest

end

/-- Leading JSON whitespace removal. -/
def skipWs : List Char → List Char
  | [] => []
  | c :: rest =>
      if c = ' ' || c = '\n' || c = '\t' || c = '\r' then skipWs rest
      else c :: rest

/-- Body of a JSON string literal after the opening quote, with the
common escapes; `none` on a malformed literal. -/
def parseStringBody : Nat → List Char → Option (String × List Char)
  | 0, _ => none
  | _, [] => none
  | fuel + 1, c :: rest =>
      if c = '"' then some ("", rest)
      else if c = '\\' then
        match rest with
        | [] => none
        | e :: rest2 =>
            let c? : Option Char :=
              if e = '"' then some '"'
              else if e = '\\' then some '\\'
              else if e = '/' then some '/'
              else if e = 'n' then some '\n'
              else if e = 't' then some '\t'
              else if e = 'r' then some '\r'
              else none
            match c? with
            | some d =>
                (parseStringBody fuel rest2).map
                  (fun p => (String.singleton d ++ p.1, p.2))
            | none => none
      else
        (parseStringBody fuel rest).map
          (fun p => (String.singleton c ++ p.1, p.2))

/-- Digit run folded to a natural number. -/
def digitsToNat (ds : List Char) : Nat :=
  ds.foldl (fun a c => a * 10 + (c.toNat - 48)) 0

/-- Integer JSON numeral (optional minus, digit run). -/
def parseNumber (cs : List Char) : Option (Json × List Char) :=
  let p : Bool × List Char :=
    match cs with
    | '-' :: r => (true, r)
    | _ => (false, cs)
  let ds := p.2.takeWhile (fun c => c.isDigit)
  if ds.isEmpty then none
  else
    let rest := p.2.drop ds.length
    let n : Int := Int.ofNat (digitsToNat ds)
    some (Json.num (if p.1 then -n else n), rest)

mutual

/-- Executable `JSON.parse` for one value; `none` where `JSON.parse`
throws `SyntaxError`. -/
def parseJsonVal : Nat → List Char → Option (Json × List Char)
  | 0, _ => none
  | fuel + 1, cs =>
      match skipWs cs with
      | 'n' :: 'u' :: 'l' :: 'l' :: rest => some (.null, rest)
      | 't' :: 'r' :: 'u' :: 'e' :: rest => some (.bool true, rest)
      | 'f' :: 'a' :: 'l' :: 's' :: 'e' :: rest => some (.bool false, rest)
      | '"' :: rest =>
          (parseStringBody fuel rest).map (fun p => (.str p.1, p.2))
      | '\x7b' :: rest =>
          match skipWs rest with
          | '\x7d' :: rest2 => some (.obj [], rest2)
          | _ => parseMembers fuel rest []
      | other => parseNumber other

/-- Members of a JSON object after the opening brace; duplicate keys
overwrite in place as in `JSON.parse`. -/
def parseMembers : Nat → List Char → List (String × Json) → Option (Json × List Char)
  | 0, _, _ => none
  | fuel + 1, cs, acc =>
      match skipWs cs with
      | '"' :: rest =>
          match parseStringBody fuel rest with
          | none => none
          | some (k, rest2) =>
              match skipWs rest2 with
              | ':' :: rest3 =>
                  match parseJsonVal fuel rest3 with
                  | none => none
                  | some (v, rest4) =>
                      match skipWs rest4 with
                      | ',' :: rest5 => parseMembers fuel rest5 (setProp acc k v)
                      | '\x7d' :: rest5 => some (.obj (setProp acc k v), rest5)
                      | _ => none
              | _ => none
      | _ => none

end

/-- Whole-input `JSON.parse`: `none` exactly where `JSON.parse` throws. -/
def jsonParse (s : String) : Option Json :=
  let cs := s.toList
  match parseJsonVal (cs.length + 2) cs with
  | some (j, rest) => if skipWs rest = [] then some j else none
  | none => none

/-- Occurrence test of `needle` inside a character list. -/
def containsSub (needle : List Char) : List Char → Bool
  | [] => needle.isEmpty
  | c :: t => needle.isPrefixOf (c :: t) || containsSub needle t

/-- Substring test `s.includes(sub)` (true on the empty needle). -/
def jsIncludes (s sub : String) : Bool :=
  containsSub sub.toList s.toList

/-- Suffix after the first occurrence of `needle`; `none` when `needle`
does not occur. -/
def afterSub (needle : List Char) : List Char → Option (List Char)
  | [] => if needle.isEmpty then some [] else none
  | c :: t =>
      if needle.isPrefixOf (c :: t) then some ((c :: t).drop needle.length)
      else afterSub needle t

/-- Prefix strictly before the first occurrence of `stop`. -/
def takeUntil (stop : Char) : List Char → List Char
  | [] => []
  | c :: t => if c = stop then [] else c :: takeUntil stop t

/-- Hostname of a URL string as `new URL(ref).hostname` reads it:
authority between `://` and the next `/`, port stripped; `none` where
the `URL` constructor throws (simplified authority grammar). -/
def hostnameOf (url : String) : Option String :=
  match afterSub "://".toList url.toList with
  | none => none
  | some rest =>
      let authority := takeUntil '/' rest
      let host := takeUntil ':' authority
      if host.isEmpty then none else some (String.mk host)

/-- Recognized campaign keys, `UTM_PARAMS` in every script. -/
def UTM_PARAMS : List String :=
  ["utm_source", "utm_medium", "utm_campaign", "utm_term", "utm_content"]

/-- Collection of the recognized utm keys present in the page query
string (`getUTMParamsFromURL`, identical in every script); the query
string is modelled as its decoded key/value list. -/
def getUTMParamsFromURL (search : List (String × String)) : List (String × String) :=
  UTM_PARAMS.foldl
    (fun result key =>
      match getProp search key with
      | some v => setProp result key v
      | none => result)
    []

/-- Environment a page load supplies: decoded query parameters, referrer
URL, page hostname, page URL and the ISO timestamp of `new Date()`. -/
structure Env where
  search : List (String × String)
  referrer : String
  hostname : String
  href : String
  now : String

/-- Event object a page-level `logEvent` pushes (stamped fields only; the
free-form `details` spread is studied separately on the object-literal
model, see `Tracker.eventLiteral`). -/
structure PageEv where
  eventType : String
  timestamp : String
  utm : Json
  pageURL : String

/-- Browser state a page load touches: `localStorage` under
`STORAGE_KEY`, the `STORAGE_KEY` cookie, the consent cookie, and the
in-memory `reportLog` array. -/
structure PageSt where
  localUtm : Option String
  cookieUtm : Option String
  consent : Option String
  reportLog : List PageEv

/-!
  ## FixedA — first script of `src/utm-tracker-fixed.js`

  Guarded init (`utmParams && !alreadyStored`), cookie restore fallback,
  auto-consent. Its `getStoredUTMData` calls `JSON.parse` with no
  `try/catch`, so a corrupt stored value propagates `SyntaxError`
  (`Except.error`).
-/

namespace FixedA

/-- Read of the durable record (`getStoredUTMData`): `localData ?
JSON.parse(localData) : null`, the parse unguarded. -/
def getStoredUTMData (localUtm : Option String) : Except String Json :=
  match localUtm with
  | none => .ok .null
  | some s =>
      if s = "" then .ok .null
      else
        match jsonParse s with
        | some j => .ok j
        | none => .error "SyntaxError"

/-- Write of a resolved record (`storeUTMParams`): spread the captured
params, stamp `firstVisit`, serialize once to both stores. -/
def storeUTMParams (utmData : List (String × String)) (env : Env) (st : PageSt) : PageSt :=
  let data := setProp (utmData.map fun kv => (kv.1, Json.str kv.2)) "firstVisit" (Json.str env.now)
  let json := jsonStringify (Json.obj data)
  { st with localUtm := some json, cookieUtm := some json }

/-- Cookie-to-localStorage self-healing (`restoreUTMFromCookie`): copy the
raw cookie value into the durable store only when the durable read is
falsy; the durable read itself is unguarded. -/
def restoreUTMFromCookie (st : PageSt) : Except String PageSt := do
  match st.cookieUtm with
  | some c =>
      if c ≠ "" then do
        let stored ← getStoredUTMData st.localUtm
        if truthy stored then pure st
        else pure { st with localUtm := some c }
      else pure st
  | none => pure st

/-- Consent check of this variant: absent cookie or `"true"` both pass. -/
def hasConsent (st : PageSt) : Bool :=
  st.consent.isNone || st.consent == some "true"

/-- Event recording (`logEvent`): gated on consent, stamps the current
stored record; `pushToDestinations` is network-only and has no state
effect with the default empty endpoints. -/
def logEvent (type : String) (env : Env) (st : PageSt) : Except String PageSt := do
  if hasConsent st then do
    let utm ← getStoredUTMData st.localUtm
    pure { st with reportLog := st.reportLog ++ [⟨type, env.now, utm, env.href⟩] }
  else pure st

/-- DOMContentLoaded handler, storage-relevant steps: simulate consent,
capture URL params, store only when nothing durable exists, otherwise try
the cookie restore, then record `page_view` (listener attachment and the
console report have no storage effect). -/
def init (env : Env) (st0 : PageSt) : Except String PageSt := do
  let st := { st0 with consent := some "true" }
  let utmParams := getUTMParamsFromURL env.search
  let alreadyStored ← getStoredUTMData st.localUtm
  let st ←
    if utmParams.length > 0 && !(truthy alreadyStored) then
      pure (storeUTMParams utmParams env st)
    else
      restoreUTMFromCookie st
  logEvent "page_view" env st

end FixedA

/-!
  ## Part007 — `src/unnamed/part_007`

  Same plugin shape, but its DOMContentLoaded handler stores the URL utm
  params whenever any are present, with no `alreadyStored` guard.
-/

namespace Part007

/-- Read of the durable record; same unguarded parse as `FixedA`. -/
def getStoredUTMData (localUtm : Option String) : Except String Json :=
  match localUtm with
  | none => .ok .null
  | some s =>
      if s = "" then .ok .null
      else
        match jsonParse s with
        | some j => .ok j
        | none => .error "SyntaxError"

/-- Write of a record: spread plus `firstVisit` stamp, both stores. -/
def storeUTMParams (utmData : List (String × String)) (env : Env) (st : PageSt) : PageSt :=
  let data := setProp (utmData.map fun kv => (kv.1, Json.str kv.2)) "firstVisit" (Json.str env.now)
  let json := jsonStringify (Json.obj data)
  { st with localUtm := some json, cookieUtm := some json }

/-- Consent check: absent cookie or `"true"` both pass. -/
def hasConsent (st : PageSt) : Bool :=
  st.consent.isNone || st.consent == some "true"

/-- Event recording, gated on consent. -/
def logEvent (type : String) (env : Env) (st : PageSt) : Except String PageSt := do
  if hasConsent st then do
    let utm ← getStoredUTMData st.localUtm
    pure { st with reportLog := st.reportLog ++ [⟨type, env.now, utm, env.href⟩] }
  else pure st

/-- DOMContentLoaded handler of this variant: simulate consent, then
`if (Object.keys(utmParams).length > 0) storeUTMParams(utmParams)` —
unconditionally, with no check of the already-stored record — then
record `page_view`. -/
def init (env : Env) (st0 : PageSt) : Except String PageSt := do
  let st := { st0 with consent := some "true" }
  let utmParams := getUTMParamsFromURL env.search
  let st := if utmParams.length > 0 then storeUTMParams utmParams env st else st
  logEvent "page_view" env st

end Part007

/-!
  ## FixedB — second script of `src/utm-tracker-fixed.js`

  Referrer-fallback variant (same init shape as `src/unnamed/part_000`):
  with no URL params and no durable record the handler consults
  `getReferrerSource()` first and falls back to the cookie restore only
  when the referrer yields nothing. All parses are caught locally, so
  every function is total. Its `logEvent` only writes to the console.
-/

namespace FixedB

/-- Read of the durable record, `try/catch` around the parse: a corrupt
value degrades to `null`. -/
def getStoredUTMData (localUtm : Option String) : Json :=
  match localUtm with
  | none => .null
  | some s => if s = "" then .null else (jsonParse s).getD .null

/-- Referrer classification (`getReferrerSource`): nothing for an empty
or same-host referrer, a mapped name for the known search/social hosts,
the raw hostname for any other external referrer, nothing when the URL
constructor throws. -/
def getReferrerSource (env : Env) : Option String :=
  let ref := env.referrer
  if ref = "" || jsIncludes ref env.hostname then none
  else
    match hostnameOf ref with
    | none => none
    | some host =>
        if jsIncludes host "google" then some "google"
        else if jsIncludes host "bing" then some "bing"
        else if jsIncludes host "facebook" then some "facebook"
        else if jsIncludes host "instagram" then some "instagram"
        else if jsIncludes host "linkedin" then some "linkedin"
        else if jsIncludes host "twitter" || jsIncludes host "t.co" then some "twitter"
        else some host

/-- Write of a record: spread (string or boolean values), `firstVisit`
stamp, one serialization to both stores. -/
def storeUTMParams (utmData : List (String × Json)) (env : Env) (st : PageSt) : PageSt :=
  let data := setProp utmData "firstVisit" (Json.str env.now)
  let json := jsonStringify (Json.obj data)
  { st with localUtm := some json, cookieUtm := some json }

/-- Cookie self-healing (`restoreFromCookieIfNeeded`): when the durable
read is falsy and the cookie value parses, re-serialize the parsed value
into the durable store; a corrupt cookie is swallowed. -/
def restoreFromCookieIfNeeded (st : PageSt) : PageSt :=
  match st.cookieUtm with
  | some c =>
      if c ≠ "" && !(truthy (getStoredUTMData st.localUtm)) then
        match jsonParse c with
        | some parsed => { st with localUtm := some (jsonStringify parsed) }
        | none => st
      else st
  | none => st

/-- Event recording of this variant only logs to the console: no state
effect. -/
def logEvent (_type : String) (_env : Env) (st : PageSt) : PageSt := st

/-- DOMContentLoaded handler: simulate consent; store URL params when
present and nothing durable exists; else, still with nothing durable,
consult the referrer first and only on failure try the cookie restore;
then record `page_view`. -/
def init (env : Env) (st0 : PageSt) : PageSt :=
  let st := { st0 with consent := some "true" }
  let utm := getUTMParamsFromURL env.search
  let existing := getStoredUTMData st.localUtm
  let st :=
    if utm.length > 0 && !(truthy existing) then
      storeUTMParams (utm.map fun kv => (kv.1, Json.str kv.2)) env st
    else if !(truthy existing) then
      match getReferrerSource env with
      | some ref =>
          storeUTMParams
            [("utm_source", Json.str ref), ("utm_medium", Json.str "referral"),
              ("fallback", Json.bool true)] env st
      | none => restoreFromCookieIfNeeded st
    else st
  logEvent "page_view" env st

end FixedB

/-!
  ## Part001 — `src/unnamed/part_001`

  Debug variant: `getStoredUTMData` wraps the parse in `try/catch` and
  returns `null` on corruption; its `logEvent` has no consent gate at
  all and always appends.
-/

namespace Part001

/-- Read of the durable record with the `try/catch`: a corrupt stored
value reads as `null` instead of throwing. -/
def getStoredUTMData (localUtm : Option String) : Json :=
  match localUtm with
  | none => .null
  | some s => if s = "" then .null else (jsonParse s).getD .null

/-- Event recording of this variant: no consent check, always appends. -/
def logEvent (type : String) (env : Env) (st : PageSt) : PageSt :=
  let utm := getStoredUTMData st.localUtm
  { st with reportLog := st.reportLog ++ [⟨type, env.now, utm, env.href⟩] }

end Part001

/-!
  ## Tracker — `src/utm-tracker.js`

  The plain plugin: consent-gated `logEvent` into the in-memory
  `reportLog`, and `generateReport` folding the log into source counts,
  funnel counts, elapsed-time series and journeys. Its
  `getStoredUTMData` parse is unguarded. In the aggregator the stored
  ISO timestamps are subtracted through `new Date`, so events carry
  integer-millisecond timestamps here; the epoch check
  `if (!userStart[uid])` tests the ISO *string*, which is never empty,
  so it is the absence check `Option.isNone` on this model.
-/

namespace Tracker

/-- Read of the durable record (`getStoredUTMData`): unguarded
`JSON.parse` of the stored value. -/
def getStoredUTMData (localUtm : Option String) : Except String Json :=
  match localUtm with
  | none => .ok .null
  | some s =>
      if s = "" then .ok .null
      else
        match jsonParse s with
        | some j => .ok j
        | none => .error "SyntaxError"

/-- Interaction event as `logEvent` stamps it (timestamps in integer
milliseconds, see the namespace note). -/
structure Event where
  eventType : String
  timestamp : Int
  utm : Json
  pageURL : String

/-- State of this script: the consent cookie, the durable store and the
in-memory `reportLog`. -/
structure St where
  consentCookie : Option String
  localUtm : Option String
  reportLog : List Event

/-- Environment of one recorder call: current time and page URL. -/
structure EnvT where
  now : Int
  href : String

/-- Strict consent check of this variant:
`getCookie(consentCookieName) === 'true'`. -/
def hasConsent (st : St) : Bool :=
  st.consentCookie == some "true"

/-- Event recorder (`logEvent`). Without consent it returns at once; with
consent it stamps and appends. The function body never returns a value,
so the second component — the JS return value — is `none` on every path.
The free-form `details` spread of the event literal is studied on
`eventLiteral` below; the stamped record shape suffices for the log. -/
def logEvent (type : String) (env : EnvT) (st : St) : Except String (St × Option Event) :=
  if hasConsent st then
    match getStoredUTMData st.localUtm with
    | .error e => .error e
    | .ok utm =>
        let event : Event := ⟨type, env.now, utm, env.href⟩
        .ok ({ st with reportLog := st.reportLog ++ [event] }, none)
  else .ok (st, none)

/-- JS object literal with spreads flattened: the listed key/value pairs
assigned left to right, a later pair overwriting an earlier key in
place. -/
def jsObjLit (pairs : List (String × Json)) : List (String × Json) :=
  pairs.foldl (fun o kv => setProp o kv.1 kv.2) []

/-- The event object literal of `logEvent` with its trailing
`...details` spread, at full JS object semantics: the four stamped
fields first, then every detail entry, later keys overwriting. -/
def eventLiteral (type : String) (timestamp : String) (utm : Json) (pageURL : String)
    (details : List (String × Json)) : List (String × Json) :=
  jsObjLit
    ([("eventType", Json.str type), ("timestamp", Json.str timestamp),
      ("utm", utm), ("pageURL", Json.str pageURL)] ++ details)

/-- Journey entry as the aggregator pushes it: an object with `event`
set to `entry.eventType` and `time` set to `entry.timestamp`. -/
structure Journey where
  event : String
  time : Int

/-- Report shape `generateReport` builds. -/
structure Report where
  totalEvents : Nat
  utmSources : List (String × Nat)
  funnel : List (String × Nat)
  timeMetrics : List (String × List Int)
  userJourneys : List (String × List Journey)

/-- Source bucket of one entry: `entry.utm?.utm_source || 'unknown'`
(missing object, missing key and falsy values all fall to
`"unknown"`; a truthy non-string value is coerced as a computed key). -/
def sourceOf (utm : Json) : String :=
  match jsGet utm "utm_source" with
  | none => "unknown"
  | some v => if truthy v then jsString v else "unknown"

/-- Counter increment `(o[k] || 0) + 1` under property assignment. -/
def bump (o : List (String × Nat)) (k : String) : List (String × Nat) :=
  setProp o k ((getProp o k).getD 0 + 1)

/-- Push onto a defaulted list property:
`if (!o[k]) o[k] = []; o[k].push(v)`. -/
def pushProp {α : Type} (o : List (String × List α)) (k : String) (v : α) :
    List (String × List α) :=
  setProp o k ((getProp o k).getD [] ++ [v])

/-- Grouping key of an entry: `JSON.stringify(entry.utm)`. -/
def uidOf (e : Event) : String := jsonStringify e.utm

/-- Body of the `reportLog.forEach` callback: one entry folded into the
report and the `userStart` epoch map. -/
def stepEntry (acc : Report × List (String × Int)) (entry : Event) :
    Report × List (String × Int) :=
  let report := acc.1
  let userStart := acc.2
  let source := sourceOf entry.utm
  let report := { report with utmSources := bump report.utmSources source }
  let report := { report with funnel := bump report.funnel entry.eventType }
  let uid := uidOf entry
  let userStart :=
    if (getProp userStart uid).isNone then setProp userStart uid entry.timestamp
    else userStart
  let duration := entry.timestamp - (getProp userStart uid).getD 0
  let report := { report with timeMetrics := pushProp report.timeMetrics uid duration }
  let report :=
    { report with
        userJourneys := pushProp report.userJourneys uid ⟨entry.eventType, entry.timestamp⟩ }
  (report, userStart)

/-- Report aggregation (`generateReport`): `totalEvents` from the log
length, then the single `forEach` pass. -/
def generateReport (log : List Event) : Report :=
  (log.foldl stepEntry
    ({ totalEvents := log.length, utmSources := [], funnel := [],
       timeMetrics := [], userJourneys := [] }, [])).1

/-- One call of the exposed `generateReport` as a state transition on the
module state: the source builds a fresh report object and only reads
`reportLog` (no assignment to the array or its entries), so the state
passes through unchanged. -/
def genReportCall (st : St) : Report × St :=
  (generateReport st.reportLog, st)

/-- Entries of a log that fall in the bucket keyed `k` — the events whose
serialized attribution snapshot is `k`, in log order. Specification-side
helper for the aggregation theorems. -/
def entriesFor (log : List Event) (k : String) : List Event :=
  log.filter (fun e => uidOf e == k)

/-- Journey entry an event contributes. -/
def journeyOf (e : Event) : Journey :=
  ⟨e.eventType, e.timestamp⟩

/-- Sum of the counts in a counter object. -/
def sumVals (o : List (String × Nat)) : Nat :=
  (o.map Prod.snd).sum

/-- Loop invariant of the `forEach` pass, after the entries of `pre` have
been folded: per key, the epoch map holds the first matching entry's
timestamp, the elapsed-time lists hold `timestamp − epoch` per matching
entry in log order, and the journey lists hold the matching entries'
journey objects in log order. -/
def Inv (pre : List Event) (acc : Report × List (String × Int)) : Prop :=
  (∀ k, getProp acc.2 k = (entriesFor pre k).head?.map Event.timestamp)
  ∧ (∀ k, getProp acc.1.timeMetrics k =
        match entriesFor pre k with
        | [] => none
        | e0 :: rest => some ((e0 :: rest).map (fun e => e.timestamp - e0.timestamp)))
  ∧ (∀ k, getProp acc.1.userJourneys k =
        match entriesFor pre k with
        | [] => none
        | e0 :: rest => some ((e0 :: rest).map journeyOf))

end Tracker

/-!
  ## Concrete inputs used by the closed theorems and witnesses
-/

/-- Durable record of the C1 scenario: first-touch attribution from
google, as `storeUTMParams` would have written it. -/
def c1Record : Json :=
  Json.obj [("utm_source", Json.str "google"), ("firstVisit", Json.str "2025-01-01T00:00:00.000Z")]

/-- Serialized form of `c1Record`, the durable store's content. -/
def c1Stored : String := jsonStringify c1Record

/-- Later page load of the C1 scenario: the URL carries a new
`utm_source=facebook` campaign tag. -/
def c1Env : Env :=
  { search := [("utm_source", "facebook")]
    referrer := ""
    hostname := "example.com"
    href := "https://example.com/?utm_source=facebook"
    now := "2025-02-01T00:00:00.000Z" }

/-- Browser state of the C1 scenario: the google record sits in both
stores, consent granted. -/
def c1St : PageSt :=
  { localUtm := some c1Stored, cookieUtm := some c1Stored
    consent := some "true", reportLog := [] }

/-- Record the unguarded variant writes over the stored one in the C1
scenario. -/
def c1Overwritten : String :=
  jsonStringify
    (Json.obj [("utm_source", Json.str "facebook"), ("firstVisit", Json.str "2025-02-01T00:00:00.000Z")])

/-- Valid non-empty backup record of the C2 scenario. -/
def c2Backup : String :=
  jsonStringify
    (Json.obj [("utm_source", Json.str "google"), ("utm_medium", Json.str "cpc"),
      ("firstVisit", Json.str "2025-01-01T00:00:00.000Z")])

/-- Page load of the C2 scenario: no campaign parameters, external
referrer `bing.com`, durable store empty, backup cookie intact. -/
def c2Env : Env :=
  { search := []
    referrer := "https://bing.com/search"
    hostname := "example.com"
    href := "https://example.com/"
    now := "2025-02-01T00:00:00.000Z" }

/-- Browser state of the C2 scenario. -/
def c2St : PageSt :=
  { localUtm := none, cookieUtm := some c2Backup, consent := none, reportLog := [] }

/-- Fallback record the referrer branch writes in the C2 scenario. -/
def c2Fallback : String :=
  jsonStringify
    (Json.obj [("utm_source", Json.str "bing"), ("utm_medium", Json.str "referral"),
      ("fallback", Json.bool true), ("firstVisit", Json.str "2025-02-01T00:00:00.000Z")])

/-- Variant of the C2 page load with no referrer at all. -/
def c2bEnv : Env :=
  { search := []
    referrer := ""
    hostname := "example.com"
    href := "https://example.com/"
    now := "2025-02-01T00:00:00.000Z" }

/-- Recorder state of the C4 scenario: consent cookie explicitly not
`"true"`. -/
def c4St : Tracker.St :=
  { consentCookie := some "false", localUtm := none, reportLog := [] }

/-- Recorder environment of the C4 scenario. -/
def c4Env : Tracker.EnvT :=
  { now := 1000, href := "https://example.com/" }

/-- Attribution snapshot shared by the scenario events (identity `V1` of
the spec's Scenario C — under this aggregator an identity is the
serialized snapshot). -/
def utmV1 : Json := Json.obj [("utm_source", Json.str "google")]

/-- Grouping key of `utmV1`. -/
def kV1 : String := jsonStringify utmV1

/-- Scenario C events: `page_view` at t=0, `button_click` at t=1000 ms,
`form_submission` at t=2500 ms, one identity. -/
def evA : Tracker.Event := ⟨"page_view", 0, utmV1, "https://example.com/a"⟩

/-- Second scenario event. -/
def evB : Tracker.Event := ⟨"button_click", 1000, utmV1, "https://example.com/a"⟩

/-- Third scenario event. -/
def evC : Tracker.Event := ⟨"form_submission", 2500, utmV1, "https://example.com/b"⟩

/-- Scenario C log. -/
def scenarioLog : List Tracker.Event := [evA, evB, evC]

/-- Two events of the C9 scenario: distinct events (here: distinct pages
and types, as from distinct visitors) whose attribution snapshots
serialize equally. -/
def evD : Tracker.Event := ⟨"page_view", 0, utmV1, "https://example.com/x"⟩

/-- Second C9 event. -/
def evE : Tracker.Event := ⟨"purchase", 9999, utmV1, "https://example.com/y"⟩

/-- C9 log. -/
def c9Log : List Tracker.Event := [evD, evE]

/-!
  # Theorems

  Helper lemmas about the JS object model and the aggregation fold,
  then one theorem (plus witness where hypotheses occur) per claim.
-/

theorem getProp_setProp_self {α : Type} (o : List (String × α)) (k : String) (v : α) :
    getProp (setProp o k v) k = some v := by
  induction o with
  | nil => simp [setProp, getProp]
  | cons hd tl ih =>
      obtain ⟨k0, v0⟩ := hd
      by_cases h : k0 = k
      · simp [setProp, getProp, h]
      · simp [setProp, getProp, h, ih]

theorem getProp_setProp_ne {α : Type} (o : List (String × α)) (k k2 : String) (v : α)
    (h : k2 ≠ k) : getProp (setProp o k v) k2 = getProp o k2 := by
  have hne : k ≠ k2 := fun hh => h hh.symm
  induction o with
  | nil => simp [setProp, getProp, hne]
  | cons hd tl ih =>
      obtain ⟨k0, v0⟩ := hd
      by_cases h0 : k0 = k
      · subst h0
        simp [setProp, getProp, hne]
      · simp [setProp, getProp, h0, ih]

theorem sumVals_bump (o : List (String × Nat)) (k : String) :
    Tracker.sumVals (Tracker.bump o k) = Tracker.sumVals o + 1 := by
  induction o with
  | nil => simp [Tracker.bump, Tracker.sumVals, setProp, getProp]
  | cons hd tl ih =>
      obtain ⟨k0, v0⟩ := hd
      by_cases h : k0 = k
      · simp [Tracker.bump, Tracker.sumVals, setProp, getProp, h]
        omega
      · have ih2 := ih
        simp [Tracker.bump, Tracker.sumVals, setProp, getProp, h] at ih2 ⊢
        omega

theorem stepEntry_snd (acc : Tracker.Report × List (String × Int)) (e : Tracker.Event) :
    (Tracker.stepEntry acc e).2
      = if (getProp acc.2 (Tracker.uidOf e)).isNone then
          setProp acc.2 (Tracker.uidOf e) e.timestamp
        else acc.2 := rfl

theorem stepEntry_totalEvents (acc : Tracker.Report × List (String × Int)) (e : Tracker.Event) :
    (Tracker.stepEntry acc e).1.totalEvents = acc.1.totalEvents := rfl

theorem stepEntry_funnel (acc : Tracker.Report × List (String × Int)) (e : Tracker.Event) :
    (Tracker.stepEntry acc e).1.funnel = Tracker.bump acc.1.funnel e.eventType := rfl

theorem stepEntry_timeMetrics (acc : Tracker.Report × List (String × Int)) (e : Tracker.Event) :
    (Tracker.stepEntry acc e).1.timeMetrics
      = Tracker.pushProp acc.1.timeMetrics (Tracker.uidOf e)
          (e.timestamp - (getProp (Tracker.stepEntry acc e).2 (Tracker.uidOf e)).getD 0) := rfl

theorem stepEntry_userJourneys (acc : Tracker.Report × List (String × Int)) (e : Tracker.Event) :
    (Tracker.stepEntry acc e).1.userJourneys
      = Tracker.pushProp acc.1.userJourneys (Tracker.uidOf e) (Tracker.journeyOf e) := rfl

theorem totalEvents_foldl (log : List Tracker.Event) :
    ∀ acc : Tracker.Report × List (String × Int),
      ((log.foldl Tracker.stepEntry acc).1).totalEvents = acc.1.totalEvents := by
  induction log with
  | nil => intro acc; rfl
  | cons e t ih =>
      intro acc
      rw [List.foldl_cons, ih, stepEntry_totalEvents]

theorem funnel_foldl (log : List Tracker.Event) :
    ∀ acc : Tracker.Report × List (String × Int),
      ((log.foldl Tracker.stepEntry acc).1).funnel
        = log.foldl (fun f e => Tracker.bump f e.eventType) acc.1.funnel := by
  induction log with
  | nil => intro acc; rfl
  | cons e t ih =>
      intro acc
      rw [List.foldl_cons, ih, List.foldl_cons, stepEntry_funnel]

theorem sumVals_foldl_bump (log : List Tracker.Event) :
    ∀ f : List (String × Nat),
      Tracker.sumVals (log.foldl (fun o e => Tracker.bump o e.eventType) f)
        = Tracker.sumVals f + log.length := by
  induction log with
  | nil => intro f; simp
  | cons e t ih =>
      intro f
      rw [List.foldl_cons, ih, sumVals_bump]
      simp [Nat.add_assoc, Nat.add_comm 1]

theorem totalEvents_len (log : List Tracker.Event) :
    (Tracker.generateReport log).totalEvents = log.length := by
  rw [Tracker.generateReport, totalEvents_foldl]

theorem entriesFor_append (pre : List Tracker.Event) (e : Tracker.Event) (k : String) :
    Tracker.entriesFor (pre ++ [e]) k
      = Tracker.entriesFor pre k ++ if Tracker.uidOf e = k then [e] else [] := by
  by_cases h : Tracker.uidOf e = k
  · simp [Tracker.entriesFor, List.filter_append, h]
  · simp [Tracker.entriesFor, List.filter_append, h]

theorem step_us_spec (pre : List Tracker.Event) (acc : Tracker.Report × List (String × Int))
    (e : Tracker.Event)
    (hus : ∀ k, getProp acc.2 k = (Tracker.entriesFor pre k).head?.map Tracker.Event.timestamp) :
    ∀ k, getProp (Tracker.stepEntry acc e).2 k
      = (Tracker.entriesFor (pre ++ [e]) k).head?.map Tracker.Event.timestamp := by
  intro k
  rw [stepEntry_snd, entriesFor_append]
  by_cases hk : Tracker.uidOf e = k
  · subst hk
    cases hE : Tracker.entriesFor pre (Tracker.uidOf e) with
    | nil =>
        have h0 : getProp acc.2 (Tracker.uidOf e) = none := by rw [hus, hE]; rfl
        simp [h0, hE, getProp_setProp_self]
    | cons e0 rest =>
        have h0 : getProp acc.2 (Tracker.uidOf e) = some e0.timestamp := by rw [hus, hE]; rfl
        simp [h0, hE]
  · cases hO : getProp acc.2 (Tracker.uidOf e) with
    | none =>
        simp [hO, getProp_setProp_ne _ _ _ _ (fun hh => hk hh.symm), hus, hk]
    | some t0 =>
        simp [hO, hus, hk]

theorem step_tm_spec (pre : List Tracker.Event) (acc : Tracker.Report × List (String × Int))
    (e : Tracker.Event)
    (hus : ∀ k, getProp acc.2 k = (Tracker.entriesFor pre k).head?.map Tracker.Event.timestamp)
    (htm : ∀ k, getProp acc.1.timeMetrics k =
        match Tracker.entriesFor pre k with
        | [] => none
        | e0 :: rest => some ((e0 :: rest).map (fun x => x.timestamp - e0.timestamp))) :
    ∀ k, getProp (Tracker.stepEntry acc e).1.timeMetrics k
      = match Tracker.entriesFor (pre ++ [e]) k with
        | [] => none
        | e0 :: rest => some ((e0 :: rest).map (fun x => x.timestamp - e0.timestamp)) := by
  intro k
  have hus2 := step_us_spec pre acc e hus (Tracker.uidOf e)
  simp only [stepEntry_timeMetrics, Tracker.pushProp]
  by_cases hk : Tracker.uidOf e = k
  · subst hk
    rw [getProp_setProp_self]
    cases hE : Tracker.entriesFor pre (Tracker.uidOf e) with
    | nil =>
        have h1 : getProp acc.1.timeMetrics (Tracker.uidOf e) = none := by rw [htm, hE]
        have hEapp : Tracker.entriesFor (pre ++ [e]) (Tracker.uidOf e) = [e] := by
          rw [entriesFor_append, hE]; simp
        rw [hEapp] at hus2 ⊢
        simp only [List.head?] at hus2
        simp [h1, hus2]
    | cons e0 rest =>
        have h1 : getProp acc.1.timeMetrics (Tracker.uidOf e) =
            some ((e0 :: rest).map (fun x => x.timestamp - e0.timestamp)) := by
          rw [htm, hE]
        have hEapp : Tracker.entriesFor (pre ++ [e]) (Tracker.uidOf e) = e0 :: (rest ++ [e]) := by
          rw [entriesFor_append, hE]; simp
        rw [hEapp] at hus2 ⊢
        simp only [List.head?] at hus2
        simp [h1, hus2, List.map_append]
  · rw [getProp_setProp_ne _ _ _ _ (fun hh => hk hh.symm), htm, entriesFor_append]
    simp [hk]

theorem step_uj_spec (pre : List Tracker.Event) (acc : Tracker.Report × List (String × Int))
    (e : Tracker.Event)
    (huj : ∀ k, getProp acc.1.userJourneys k =
        match Tracker.entriesFor pre k with
        | [] => none
        | e0 :: rest => some ((e0 :: rest).map Tracker.journeyOf)) :
    ∀ k, getProp (Tracker.stepEntry acc e).1.userJourneys k
      = match Tracker.entriesFor (pre ++ [e]) k with
        | [] => none
        | e0 :: rest => some ((e0 :: rest).map Tracker.journeyOf) := by
  intro k
  simp only [stepEntry_userJourneys, Tracker.pushProp]
  by_cases hk : Tracker.uidOf e = k
  · subst hk
    rw [getProp_setProp_self]
    cases hE : Tracker.entriesFor pre (Tracker.uidOf e) with
    | nil =>
        have h1 : getProp acc.1.userJourneys (Tracker.uidOf e) = none := by rw [huj, hE]
        have hEapp : Tracker.entriesFor (pre ++ [e]) (Tracker.uidOf e) = [e] := by
          rw [entriesFor_append, hE]; simp
        rw [hEapp]
        simp [h1]
    | cons e0 rest =>
        have h1 : getProp acc.1.userJourneys (Tracker.uidOf e) =
            some ((e0 :: rest).map Tracker.journeyOf) := by
          rw [huj, hE]
        have hEapp : Tracker.entriesFor (pre ++ [e]) (Tracker.uidOf e) = e0 :: (rest ++ [e]) := by
          rw [entriesFor_append, hE]; simp
        rw [hEapp]
        simp [h1, List.map_append]
  · rw [getProp_setProp_ne _ _ _ _ (fun hh => hk hh.symm), huj, entriesFor_append]
    simp [hk]

theorem inv_step (pre : List Tracker.Event) (acc : Tracker.Report × List (String × Int))
    (e : Tracker.Event) (h : Tracker.Inv pre acc) :
    Tracker.Inv (pre ++ [e]) (Tracker.stepEntry acc e) := by
  obtain ⟨hus, htm, huj⟩ := h
  exact ⟨step_us_spec pre acc e hus, step_tm_spec pre acc e hus htm, step_uj_spec pre acc e huj⟩

theorem inv_start (n : Nat) :
    Tracker.Inv []
      ({ totalEvents := n, utmSources := [], funnel := [],
         timeMetrics := [], userJourneys := [] }, []) := by
  refine ⟨?_, ?_, ?_⟩ <;> intro k <;> simp [Tracker.entriesFor, getProp]

theorem inv_foldl (log : List Tracker.Event) :
    ∀ (pre : List Tracker.Event) (acc : Tracker.Report × List (String × Int)),
      Tracker.Inv pre acc → Tracker.Inv (pre ++ log) (log.foldl Tracker.stepEntry acc) := by
  induction log with
  | nil => intro pre acc h; simpa using h
  | cons e t ih =>
      intro pre acc h
      have h2 := ih (pre ++ [e]) (Tracker.stepEntry acc e) (inv_step pre acc e h)
      rw [List.foldl_cons]
      simpa [List.append_assoc] using h2

theorem generateReport_timeMetrics_spec (log : List Tracker.Event) (k : String) :
    getProp (Tracker.generateReport log).timeMetrics k
      = match Tracker.entriesFor log k with
        | [] => none
        | e0 :: rest => some ((e0 :: rest).map (fun x => x.timestamp - e0.timestamp)) := by
  have h := inv_foldl log []
    ({ totalEvents := log.length, utmSources := [], funnel := [],
       timeMetrics := [], userJourneys := [] }, []) (inv_start log.length)
  simpa [Tracker.generateReport] using h.2.1 k

theorem generateReport_userJourneys_spec (log : List Tracker.Event) (k : String) :
    getProp (Tracker.generateReport log).userJourneys k
      = match Tracker.entriesFor log k with
        | [] => none
        | e0 :: rest => some ((e0 :: rest).map Tracker.journeyOf) := by
  have h := inv_foldl log []
    ({ totalEvents := log.length, utmSources := [], funnel := [],
       timeMetrics := [], userJourneys := [] }, []) (inv_start log.length)
  simpa [Tracker.generateReport] using h.2.2 k

/-- C3: for every event log of N appended events — including events
whose attribution snapshot is absent or malformed — `generateReport`
reports `totalEvents = N`; aggregation discards no event. -/
theorem generateReport_totalEvents (log : List Tracker.Event) :
    (Tracker.generateReport log).totalEvents = log.length :=
  totalEvents_len log

/-- C7: funnel partition — the funnel counts of `generateReport` sum to
`totalEvents` on every log; every event contributes to exactly one
eventType bucket. -/
theorem generateReport_funnel_partition (log : List Tracker.Event) :
    Tracker.sumVals (Tracker.generateReport log).funnel
      = (Tracker.generateReport log).totalEvents := by
  have h1 : (Tracker.generateReport log).funnel
      = log.foldl (fun f e => Tracker.bump f e.eventType) [] := by
    simp [Tracker.generateReport, funnel_foldl]
  rw [h1, sumVals_foldl_bump log [], totalEvents_len]
  simp [Tracker.sumVals]

/-- C10: report generation is read-only and deterministic — a
`generateReport` call leaves the module state (the event log) unchanged,
and two consecutive calls with no intervening record operation return
equal reports. -/
theorem generateReport_read_only_deterministic (st : Tracker.St) :
    (Tracker.genReportCall st).2 = st
    ∧ (Tracker.genReportCall ((Tracker.genReportCall st).2)).1 = (Tracker.genReportCall st).1
    ∧ (Tracker.genReportCall ((Tracker.genReportCall st).2)).2 = st :=
  ⟨rfl, rfl, rfl⟩

/-- C8: the free-form details map is spread into the event literal after
the stamped fields, so a `details` entry keyed `eventType` overwrites
the recorder's own type argument — the appended event's `eventType`
differs from the type passed to the recorder. -/
theorem details_shadow_stamped_eventType :
    getProp
      (Tracker.eventLiteral "button_click" "2025-04-02T10:00:00.000Z" Json.null
        "https://example.com/" [("eventType", Json.str "form_submission")])
      "eventType" = some (Json.str "form_submission")
    ∧ ("form_submission" == "button_click") = false :=
  ⟨rfl, rfl⟩

/-- C4 counterexample: with the consent cookie not `"true"`, the
recorder of `src/utm-tracker.js` returns bare `undefined` — state
unchanged and no discarded event object available for inspection,
contrary to the claim's returned-event clause. -/
theorem logEvent_consent_false_returns_nothing :
    Tracker.logEvent "button_click" c4Env c4St
      = Except.ok (c4St, (none : Option Tracker.Event)) := rfl

/-- C4 (amended): every recorder call made while the consent signal is
false appends nothing — state and hence `generateReport().totalEvents`
unchanged — and raises no exception; the call returns `undefined` (no
event object) rather than the discarded event. -/
theorem logEvent_consent_suppression (type : String) (env : Tracker.EnvT)
    (st st2 : Tracker.St) (r : Option Tracker.Event)
    (hc : Tracker.hasConsent st = false)
    (hrun : Tracker.logEvent type env st = .ok (st2, r)) :
    st2 = st ∧ r = none
      ∧ (Tracker.generateReport st2.reportLog).totalEvents
          = (Tracker.generateReport st.reportLog).totalEvents := by
  simp only [Tracker.logEvent, hc] at hrun
  simp only [Bool.false_eq_true, if_false, Except.ok.injEq, Prod.mk.injEq] at hrun
  obtain ⟨h1, h2⟩ := hrun
  subst h1
  subst h2
  exact ⟨rfl, rfl, rfl⟩

/-- C4 witness: the suppression theorem applied at the concrete
consent-false recorder state. -/
theorem logEvent_consent_suppression_witness :
    c4St = c4St ∧ (none : Option Tracker.Event) = none
      ∧ (Tracker.generateReport c4St.reportLog).totalEvents
          = (Tracker.generateReport c4St.reportLog).totalEvents :=
  logEvent_consent_suppression "button_click" c4Env c4St c4St none rfl rfl

/-- C5: corruption divergence — on the unparseable stored value the read
of `src/utm-tracker.js` propagates `SyntaxError`, while the read of
`src/unnamed/part_001` degrades to `null` (absent) as the claim
requires; on a well-formed serialized record both return the parsed
record. -/
theorem getStoredUTMData_corruption_divergence :
    Tracker.getStoredUTMData (some "\x7b") = Except.error "SyntaxError"
    ∧ Part001.getStoredUTMData (some "\x7b") = Json.null
    ∧ Tracker.getStoredUTMData (some c1Stored) = Except.ok c1Record
    ∧ Part001.getStoredUTMData (some c1Stored) = c1Record :=
  ⟨rfl, rfl, rfl, rfl⟩

/-- C1: first-touch divergence — at a page load whose URL carries
`utm_source=facebook` while a non-empty google record is durably stored,
the guarded init of `utm-tracker-fixed.js` leaves the durable record
unchanged, but the init of `part_007` overwrites it with a facebook
record. -/
theorem first_touch_divergence :
    (FixedA.init c1Env c1St).map PageSt.localUtm = Except.ok (some c1Stored)
    ∧ (Part007.init c1Env c1St).map PageSt.localUtm = Except.ok (some c1Overwritten)
    ∧ (c1Overwritten == c1Stored) = false :=
  ⟨rfl, rfl, rfl⟩

/-- C2 counterexample: page load with no campaign parameters, empty
durable store, valid non-empty backup record and external referrer
`bing.com` — the referrer-variant init stores the referrer fallback
record, not the backup record: the backup branch does not precede the
referrer branch. -/
theorem backup_before_referrer_cex :
    (jsonParse c2Backup).isSome = true
    ∧ truthy ((jsonParse c2Backup).getD Json.null) = true
    ∧ (FixedB.init c2Env c2St).localUtm = some c2Fallback
    ∧ (c2Fallback == c2Backup) = false :=
  ⟨rfl, rfl, rfl, rfl⟩

/-- C2 (amended): on every page load with no existing durable record and
no recognized utm parameter, the referrer-variant init consults the
referrer host first — storing the referrer fallback record whenever
`getReferrerSource` resolves — and adopts the backup-store record
(parsed and re-serialized) only when the referrer resolves to
nothing. -/
theorem init_referrer_precedes_backup (env : Env) (st : PageSt)
    (hparams : getUTMParamsFromURL env.search = [])
    (hdur : truthy (FixedB.getStoredUTMData st.localUtm) = false) :
    (FixedB.init env st).localUtm =
      match FixedB.getReferrerSource env with
      | some ref =>
          some (jsonStringify (Json.obj
            (setProp
              [("utm_source", Json.str ref), ("utm_medium", Json.str "referral"),
                ("fallback", Json.bool true)] "firstVisit" (Json.str env.now))))
      | none =>
          match st.cookieUtm with
          | some c =>
              if c ≠ "" then
                match jsonParse c with
                | some parsed => some (jsonStringify parsed)
                | none => st.localUtm
              else st.localUtm
          | none => st.localUtm := by
  cases href : FixedB.getReferrerSource env with
  | some ref =>
      simp [FixedB.init, FixedB.logEvent, FixedB.storeUTMParams, hparams, hdur, href]
  | none =>
      simp only [FixedB.init, FixedB.logEvent, hparams, hdur, href]
      simp only [List.length_nil, FixedB.restoreFromCookieIfNeeded]
      cases hc : st.cookieUtm with
      | none => simp
      | some c =>
          by_cases hce : c = ""
          · simp [hce]
          · simp only [hce, hdur]
            cases hp : jsonParse c <;> simp [hce, hdur, hp]

/-- C2 witness: the precedence theorem at a concrete load with no
referrer and a surviving backup record — the backup is adopted. -/
theorem init_referrer_precedes_backup_witness :
    (FixedB.init c2bEnv c2St).localUtm
      = some (jsonStringify ((jsonParse c2Backup).getD Json.null)) :=
  init_referrer_precedes_backup c2bEnv c2St rfl rfl

/-- C6: per identity key the aggregator takes the timestamp of that
identity's first event in log order as its epoch, appends
`timestamp − epoch` for each of its events in log order to
`timeMetrics` and the corresponding journey entries in the same order to
`userJourneys`; with non-decreasing log timestamps the elapsed series is
monotonically non-decreasing. -/
theorem generateReport_time_series (log : List Tracker.Event) (k : String)
    (e0 : Tracker.Event) (rest : List Tracker.Event)
    (hK : Tracker.entriesFor log k = e0 :: rest)
    (hmono : log.Pairwise (fun a b => a.timestamp ≤ b.timestamp)) :
    getProp (Tracker.generateReport log).timeMetrics k
      = some ((e0 :: rest).map (fun x => x.timestamp - e0.timestamp))
    ∧ getProp (Tracker.generateReport log).userJourneys k
      = some ((e0 :: rest).map Tracker.journeyOf)
    ∧ List.Pairwise (· ≤ ·) ((e0 :: rest).map (fun x => x.timestamp - e0.timestamp)) := by
  refine ⟨?_, ?_, ?_⟩
  · rw [generateReport_timeMetrics_spec, hK]
  · rw [generateReport_userJourneys_spec, hK]
  · have hsub : (e0 :: rest).Pairwise (fun a b => a.timestamp ≤ b.timestamp) := by
      rw [← hK]
      exact List.Pairwise.sublist (List.filter_sublist log) hmono
    rw [List.pairwise_map]
    exact hsub.imp (fun hab => sub_le_sub_right hab _)

/-- C6 witness: Scenario C — three events of one identity at 0, 1000 and
2500 ms yield elapsed series `[0, 1000, 2500]` and a three-entry journey
in arrival order. -/
theorem generateReport_time_series_witness :
    getProp (Tracker.generateReport scenarioLog).timeMetrics kV1
      = some [0, 1000, 2500]
    ∧ getProp (Tracker.generateReport scenarioLog).userJourneys kV1
      = some [⟨"page_view", 0⟩, ⟨"button_click", 1000⟩, ⟨"form_submission", 2500⟩]
    ∧ List.Pairwise (· ≤ ·) ([0, 1000, 2500] : List Int) := by
  have hm : scenarioLog.Pairwise (fun a b => a.timestamp ≤ b.timestamp) := by
    simp [scenarioLog, List.pairwise_cons, evA, evB, evC]
  have h := generateReport_time_series scenarioLog kV1 evA [evB, evC] rfl hm
  exact ⟨h.1, h.2.1, h.2.2⟩

/-- C9: the aggregator keys `timeMetrics` and `userJourneys` by the JSON
serialization of the attribution snapshot — two events whose snapshots
serialize equally land in one journey list — and `JSON.stringify(null)`
is the single `"null"` key shared by all attribution-less events. -/
theorem generateReport_groups_by_serialized_attribution
    (log : List Tracker.Event) (e1 e2 : Tracker.Event)
    (h1 : e1 ∈ log) (h2 : e2 ∈ log)
    (heq : jsonStringify e1.utm = jsonStringify e2.utm) :
    (∃ l, getProp (Tracker.generateReport log).userJourneys (jsonStringify e1.utm) = some l
        ∧ Tracker.journeyOf e1 ∈ l ∧ Tracker.journeyOf e2 ∈ l)
    ∧ jsonStringify Json.null = "null" := by
  refine ⟨?_, rfl⟩
  have hm1 : e1 ∈ Tracker.entriesFor log (jsonStringify e1.utm) := by
    simp [Tracker.entriesFor, List.mem_filter, h1, Tracker.uidOf]
  have hm2 : e2 ∈ Tracker.entriesFor log (jsonStringify e1.utm) := by
    simp [Tracker.entriesFor, List.mem_filter, h2, Tracker.uidOf, heq]
  cases hE : Tracker.entriesFor log (jsonStringify e1.utm) with
  | nil => rw [hE] at hm1; cases hm1
  | cons e0 rest =>
      refine ⟨(e0 :: rest).map Tracker.journeyOf, ?_, ?_, ?_⟩
      · rw [generateReport_userJourneys_spec, hE]
      · rw [hE] at hm1; exact List.mem_map_of_mem _ hm1
      · rw [hE] at hm2; exact List.mem_map_of_mem _ hm2

/-- C9 witness: two distinct events with equal serialized snapshots land
in the same journey list of the generated report. -/
theorem generateReport_groups_witness :
    ∃ l, getProp (Tracker.generateReport c9Log).userJourneys (jsonStringify evD.utm) = some l
      ∧ Tracker.journeyOf evD ∈ l ∧ Tracker.journeyOf evE ∈ l :=
  (generateReport_groups_by_serialized_attribution c9Log evD evE
    (List.mem_cons_self _ _) (by simp [c9Log]) rfl).1
